import Mathlib

/-!
# Verification of the cal-frontend-v3 booking/availability core

Shallow embedding of the client-side booking flow of the repository:

* `src/lib/types.ts` — calendar-provider classifier and platform/calendar
  combination table (`getCalendarProvider`, `buildLocationTypeFromSelection`);
* `src/hooks/use-booking-state.ts` — URL-backed booking state store
  (`handleSelectSlot`, `handleSuccess`, date `parse`/`serialize`);
* `src/pages/external_page/_components/booking-calendar.tsx` — slot
  resolution for a selected date (`timeSlots`), date-change handler
  (`handleChangeDate`), and booking submission (`onSubmit`);
* `src/lib/axios-client.ts` — authenticated-API response error interceptor;
* the OAuth return handler (`useOAuthHandler`).

JavaScript strings are modelled as `List Char`; absent/`null`/`undefined`
values as `Option`; JavaScript "falsy" tests on strings check for
`none`/empty.  JavaScript built-ins used by the code (`toLowerCase`,
`includes`, `encodeURIComponent`, `decodeURIComponent`, `parseInt`,
`String.prototype.split`, `Date.UTC`, `Date.prototype.toISOString`) are
modelled explicitly below, restricted to the behaviour exercised by the
embedded code (ASCII case mapping, minute-level time arithmetic).
-/

/-! ## Basic character/string utilities (models of JS built-ins) -/

/-- ASCII lower-casing of one character, the behaviour of
`String.prototype.toLowerCase` on the ASCII identifiers handled by the
classifier. -/
def jsToLower (s : List Char) : List Char := s.map Char.toLower

/-- JS "falsy" test for an optional string argument (`!x` in the source):
true for `null`/`undefined` and for the empty string. -/
def jsFalsy : Option (List Char) → Bool
  | none => true
  | some s => s.isEmpty

/-- Model of `String.prototype.includes pat`: some contiguous substring of
`s` equals `pat`. -/
def jsIncludes (s pat : List Char) : Bool :=
  match s with
  | [] => pat.isEmpty
  | c :: t => pat.isPrefixOf (c :: t) || jsIncludes t pat

/-- A prefix occurs as a substring of any right-extension. -/
theorem jsIncludes_of_isPrefixOf (p s t : List Char) (h : p.isPrefixOf s = true) :
    jsIncludes (s ++ t) p = true := by
  cases s with
  | nil =>
    cases p with
    | nil => cases t <;> simp [jsIncludes, List.isPrefixOf]
    | cons a q => simp [List.isPrefixOf] at h
  | cons c s' =>
    have hp : p <+: c :: (s' ++ t) := by
      have h1 : p <+: (c :: s') := List.isPrefixOf_iff_prefix.mp h
      exact h1.trans ⟨t, rfl⟩
    simp [jsIncludes]
    exact Or.inl hp

/-! ## Calendar-provider classifier — `src/lib/types.ts`, `getCalendarProvider` -/

inductive CalendarProvider where
  | GOOGLE
  | OUTLOOK
deriving DecidableEq, Repr

inductive ConferencePlatform where
  | GOOGLE_MEET
  | ZOOM
  | MICROSOFT_TEAMS
deriving DecidableEq, Repr

inductive EventLocationEnumType where
  | GOOGLE_MEET_AND_CALENDAR
  | OUTLOOK_WITH_ZOOM
  | GOOGLE_WITH_ZOOM
  | OUTLOOK_WITH_TEAMS
deriving DecidableEq, Repr

/-- `microsoftGraphPatterns` of `getCalendarProvider`. -/
def microsoftGraphPatterns : List (List Char) :=
  ["aqmkad".toList, "aamkad".toList, "mqmkad".toList, "ogmkad".toList]

/-- `outlookPatterns` of `getCalendarProvider`. -/
def outlookPatterns : List (List Char) :=
  ["@outlook.".toList, "@hotmail.".toList, "@live.".toList, "@msn.".toList,
   "outlook".toList, "microsoft".toList, "office365".toList, "exchange".toList,
   "outlook_calendar".toList, "microsoft_calendar".toList,
   "graph.microsoft".toList, "office.com".toList]

/-- `googlePatterns` of `getCalendarProvider`. -/
def googlePatterns : List (List Char) :=
  ["@gmail.".toList, "@googlemail.".toList, "google".toList,
   "calendar.google".toList, "primary".toList]

/-- `getCalendarProvider(calendarId?, calendarName?)` of `src/lib/types.ts`:
guard on both arguments falsy, then search the space-joined lower-cased
texts against the three pattern lists in priority order, defaulting to
GOOGLE. -/
def getCalendarProvider (calendarId calendarName : Option (List Char)) :
    CalendarProvider :=
  if jsFalsy calendarId && jsFalsy calendarName then .GOOGLE
  else
    let searchTexts :=
      jsToLower (calendarId.getD []) ++ ' ' :: jsToLower (calendarName.getD [])
    if microsoftGraphPatterns.any (fun p => jsIncludes searchTexts p) then .OUTLOOK
    else if outlookPatterns.any (fun p => jsIncludes searchTexts p) then .OUTLOOK
    else if googlePatterns.any (fun p => jsIncludes searchTexts p) then .GOOGLE
    else .GOOGLE

/-- `buildLocationTypeFromSelection` of `src/lib/types.ts`.  The trailing
`throw` of the source is unreachable: the three `if` branches cover every
`ConferencePlatform` constructor. -/
def buildLocationTypeFromSelection (conferencePlatform : ConferencePlatform)
    (calendarId calendarName : Option (List Char)) : EventLocationEnumType :=
  let calendarProvider := getCalendarProvider calendarId calendarName
  match conferencePlatform with
  | .GOOGLE_MEET => .GOOGLE_MEET_AND_CALENDAR
  | .ZOOM =>
      if calendarProvider = .OUTLOOK then .OUTLOOK_WITH_ZOOM
      else .GOOGLE_WITH_ZOOM
  | .MICROSOFT_TEAMS =>
      if calendarProvider = .OUTLOOK then .OUTLOOK_WITH_TEAMS
      else .OUTLOOK_WITH_TEAMS

/-! ## Booking wizard success flag — `src/hooks/use-booking-state.ts` -/

/-- The slice of the URL-backed booking state touched by `handleSuccess`. -/
structure BookingWizardState where
  isSuccess : Bool
deriving DecidableEq, Repr

/-- `handleSuccess(value)` of `use-booking-state.ts`:
`setIsSuccess(value || true)`. -/
def handleSuccess (st : BookingWizardState) (value : Bool) : BookingWizardState :=
  { st with isSuccess := value || true }

/-! ## Claim theorems (first group) -/

/-- C6: the success-state setter always forces `isSuccess` to `true`,
whatever boolean it is given; in particular `handleSuccess` can never set
it back to `false`. -/
theorem handleSuccess_forces_true (st : BookingWizardState) (value : Bool) :
    (handleSuccess st value).isSuccess = true := by
  cases value <;> rfl

/-- C9: the platform/calendar combination table of
`buildLocationTypeFromSelection`: GOOGLE_MEET maps unconditionally to
GOOGLE_MEET_AND_CALENDAR; ZOOM maps to OUTLOOK_WITH_ZOOM exactly when the
detected provider is OUTLOOK and to GOOGLE_WITH_ZOOM otherwise (so with no
calendar selected it defaults to GOOGLE_WITH_ZOOM); MICROSOFT_TEAMS maps
unconditionally to OUTLOOK_WITH_TEAMS. -/
theorem buildLocationTypeFromSelection_table
    (calendarId calendarName : Option (List Char)) :
    buildLocationTypeFromSelection .GOOGLE_MEET calendarId calendarName
        = .GOOGLE_MEET_AND_CALENDAR
    ∧ (buildLocationTypeFromSelection .ZOOM calendarId calendarName
          = .OUTLOOK_WITH_ZOOM
        ↔ getCalendarProvider calendarId calendarName = .OUTLOOK)
    ∧ (buildLocationTypeFromSelection .ZOOM calendarId calendarName
          = .GOOGLE_WITH_ZOOM
        ↔ getCalendarProvider calendarId calendarName ≠ .OUTLOOK)
    ∧ buildLocationTypeFromSelection .ZOOM none none = .GOOGLE_WITH_ZOOM
    ∧ buildLocationTypeFromSelection .MICROSOFT_TEAMS calendarId calendarName
        = .OUTLOOK_WITH_TEAMS := by
  refine ⟨rfl, ?_, ?_, by decide, ?_⟩
  · unfold buildLocationTypeFromSelection
    cases h : getCalendarProvider calendarId calendarName <;> simp [h]
  · unfold buildLocationTypeFromSelection
    cases h : getCalendarProvider calendarId calendarName <;> simp [h]
  · unfold buildLocationTypeFromSelection
    cases h : getCalendarProvider calendarId calendarName <;> simp [h]

/-- C3: any identifier starting (case-insensitively) with one of the known
Microsoft-Graph-ID prefixes is classified OUTLOOK, regardless of the
accompanying name text, because the Graph-pattern check runs first. -/
theorem getCalendarProvider_graph_prefix_outlook
    (calendarId : List Char) (calendarName : Option (List Char))
    (h : ∃ p ∈ microsoftGraphPatterns, p.isPrefixOf (jsToLower calendarId) = true) :
    getCalendarProvider (some calendarId) calendarName = .OUTLOOK := by
  obtain ⟨p, hp, hpre⟩ := h
  have hne : calendarId ≠ [] := by
    intro hnil
    subst hnil
    fin_cases hp <;> simp [jsToLower, List.isPrefixOf] at hpre
  have hinc : jsIncludes
      (jsToLower calendarId ++ ' ' :: jsToLower (calendarName.getD [])) p = true :=
    jsIncludes_of_isPrefixOf p (jsToLower calendarId) _ hpre
  have hany : microsoftGraphPatterns.any
      (fun q => jsIncludes
        (jsToLower calendarId ++ ' ' :: jsToLower (calendarName.getD [])) q) = true :=
    List.any_eq_true.mpr ⟨p, hp, hinc⟩
  unfold getCalendarProvider
  have hguard : (jsFalsy (some calendarId) && jsFalsy calendarName) = false := by
    cases calendarId with
    | nil => exact absurd rfl hne
    | cons a t => simp [jsFalsy]
  simp only [hguard, if_neg, Bool.false_eq_true, not_false_eq_true, if_false]
  simp [hany]

/-- C3 witness: a Microsoft-Graph-prefixed identifier paired with a
Google-looking name is still classified OUTLOOK. -/
theorem getCalendarProvider_graph_prefix_outlook_witness :
    getCalendarProvider ("AQMkADAwATM0MDAAMS0xZjka".toList)
      (some ("My google primary calendar".toList)) = .OUTLOOK :=
  getCalendarProvider_graph_prefix_outlook ("AQMkADAwATM0MDAAMS0xZjka".toList)
    (some ("My google primary calendar".toList))
    ⟨"aqmkad".toList, by decide, by decide⟩

/-! ## Decimal rendering and parsing (models of JS number-to-string,
`parseInt`, `padStart`) -/

/-- The decimal digit character of `n % 10`. -/
def digitChar10 (n : Nat) : Char := Char.ofNat (48 + n % 10)

/-- Fuel-driven decimal rendering; `fuel ≥ n` suffices. -/
def natDigitsGo : Nat → Nat → List Char
  | 0, n => [digitChar10 n]
  | fuel + 1, n =>
      if n < 10 then [digitChar10 n]
      else natDigitsGo fuel (n / 10) ++ [digitChar10 (n % 10)]

/-- Decimal rendering of a natural number, the behaviour of JS
number-to-string conversion (template interpolation) on non-negative
integers. -/
def natDigits (n : Nat) : List Char := natDigitsGo n n

/-- Value of a digit string read left to right. -/
def digitsVal (s : List Char) : Nat := s.foldl (fun a c => 10 * a + (c.toNat - 48)) 0

/-- `String.prototype.padStart(k, "0")`. -/
def padLeft (k : Nat) (s : List Char) : List Char :=
  List.replicate (k - s.length) '0' ++ s

/-- Two-digit zero padding of a number (`toString().padStart(2, '0')`). -/
def pad2 (n : Nat) : List Char := padLeft 2 (natDigits n)

/-- Model of JS `parseInt` restricted to the strings the embedded code
feeds it (no leading whitespace or sign is ever produced there): reads the
longest leading digit run; `none` models `NaN` when the string does not
start with a digit. -/
def parseIntJS (s : List Char) : Option Nat :=
  match s with
  | [] => none
  | c :: _ => if c.isDigit then some (digitsVal (s.takeWhile Char.isDigit)) else none

/-! ## Percent-encoding (models of `encodeURIComponent` /
`decodeURIComponent`) -/

/-- Characters `encodeURIComponent` leaves unescaped. -/
def isUnreservedURI (c : Char) : Bool :=
  c.isAlpha || c.isDigit || c = '-' || c = '_' || c = '.' || c = '!' ||
    c = '~' || c = '*' || c = '\'' || c = '(' || c = ')'

/-- Upper-case hexadecimal digit for `n < 16`. -/
def hexDigitUpper (n : Nat) : Char :=
  if n < 10 then Char.ofNat (48 + n) else Char.ofNat (55 + n)

/-- UTF-8 bytes of one scalar value. -/
def utf8Bytes (c : Char) : List Nat :=
  let n := c.toNat
  if n < 128 then [n]
  else if n < 2048 then [192 + n / 64, 128 + n % 64]
  else if n < 65536 then [224 + n / 4096, 128 + n / 64 % 64, 128 + n % 64]
  else [240 + n / 262144, 128 + n / 4096 % 64, 128 + n / 64 % 64, 128 + n % 64]

/-- `%XX` escape of one byte. -/
def percentEncodeByte (b : Nat) : List Char :=
  ['%', hexDigitUpper (b / 16 % 16), hexDigitUpper (b % 16)]

/-- Model of `encodeURIComponent`. -/
def encodeURIComponent (s : List Char) : List Char :=
  s.flatMap fun c =>
    if isUnreservedURI c then [c] else (utf8Bytes c).flatMap percentEncodeByte

/-- Numeric value of a hexadecimal digit character; `none` for
non-hex-digit characters. -/
def hexVal (c : Char) : Option Nat :=
  if '0' ≤ c ∧ c ≤ '9' then some (c.toNat - 48)
  else if 'A' ≤ c ∧ c ≤ 'F' then some (c.toNat - 55)
  else if 'a' ≤ c ∧ c ≤ 'f' then some (c.toNat - 87)
  else none

/-- Decode the UTF-8 continuation bytes following a multi-byte lead; each
continuation must itself appear as a `%XX` escape (as `decodeURIComponent`
requires).  Returns the scalar value accumulated so far and the rest of
the input. -/
def decodeContinuations : Nat → Nat → List Char → Option (Nat × List Char)
  | 0, acc, rest => some (acc, rest)
  | k + 1, acc, '%' :: h1 :: h2 :: rest =>
      match hexVal h1, hexVal h2 with
      | some a, some b =>
          let byte := 16 * a + b
          if 128 ≤ byte ∧ byte < 192 then
            decodeContinuations k (64 * acc + (byte - 128)) rest
          else none
      | _, _ => none
  | _ + 1, _, _ => none

/-- Fuel-driven body of `decodeURIComponent`; any `fuel ≥` input length
behaves identically (each step consumes at least one character). -/
def decodeURIGo : Nat → List Char → Option (List Char)
  | 0, s => if s.isEmpty then some [] else none
  | _ + 1, [] => some []
  | fuel + 1, c :: rest =>
      if c = '%' then
        match rest with
        | h1 :: h2 :: rest1 =>
            match hexVal h1, hexVal h2 with
            | some a, some b =>
                let byte := 16 * a + b
                if byte < 128 then
                  (decodeURIGo fuel rest1).map fun l => Char.ofNat byte :: l
                else if 192 ≤ byte ∧ byte < 224 then
                  match decodeContinuations 1 (byte - 192) rest1 with
                  | some (n, rest2) =>
                      if 128 ≤ n then
                        (decodeURIGo fuel rest2).map fun l => Char.ofNat n :: l
                      else none
                  | none => none
                else if 224 ≤ byte ∧ byte < 240 then
                  match decodeContinuations 2 (byte - 224) rest1 with
                  | some (n, rest2) =>
                      if 2048 ≤ n ∧ ¬ (55296 ≤ n ∧ n ≤ 57343) then
                        (decodeURIGo fuel rest2).map fun l => Char.ofNat n :: l
                      else none
                  | none => none
                else if 240 ≤ byte ∧ byte < 245 then
                  match decodeContinuations 3 (byte - 240) rest1 with
                  | some (n, rest2) =>
                      if 65536 ≤ n ∧ n ≤ 1114111 then
                        (decodeURIGo fuel rest2).map fun l => Char.ofNat n :: l
                      else none
                  | none => none
                else none
            | _, _ => none
        | _ => none
      else (decodeURIGo fuel rest).map fun l => c :: l

/-- Model of `decodeURIComponent`: `%XX` escapes are decoded (multi-byte
UTF-8 sequences must be complete and in range), other characters pass
through unchanged; `none` models a thrown `URIError`. -/
def decodeURIComponent (s : List Char) : Option (List Char) :=
  decodeURIGo s.length s

/-! ## Booking state store — `src/hooks/use-booking-state.ts` -/

/-- The `CalendarDate` of `@internationalized/date` as used by the store:
a plain (year, month, day) triple with no time component. -/
structure CalendarDate where
  year : Nat
  month : Nat
  day : Nat
deriving DecidableEq, Repr

/-- Model of `parse(slot, "HH:mm", new Date())` (date-fns) followed by
`getHours()` / `getMinutes()`: a 1–2 digit hour in `0..23`, a colon, and
1–2 digit minutes in `0..59`; `none` models an invalid date (whose
`getHours()` is `NaN`). -/
def parseHHmm (s : List Char) : Option (Nat × Nat) :=
  let hp := s.takeWhile Char.isDigit
  match s.dropWhile Char.isDigit with
  | ':' :: ms =>
      if hp.length = 0 ∨ 2 < hp.length then none
      else if ms.length = 0 ∨ 2 < ms.length ∨ ¬ ms.all Char.isDigit then none
      else if digitsVal hp ≤ 23 ∧ digitsVal ms ≤ 59 then
        some (digitsVal hp, digitsVal ms)
      else none
  | _ => none

/-- `handleSelectSlot(slot)` of `use-booking-state.ts`, returning the new
`selectedSlot` value.  The first branch covers `!selectedDate || !slot`
(including the falsy empty string); otherwise the slot label is parsed as
"HH:mm" and an encoded UTC wall-clock string is built.  When the parse
fails, `getHours()`/`getMinutes()` are `NaN` and the interpolation prints
"NaN" (`padStart` leaves it unchanged). -/
def handleSelectSlot (selectedDate : Option CalendarDate)
    (slot : Option (List Char)) : Option (List Char) :=
  match selectedDate, slot with
  | some sd, some s =>
      if s.isEmpty then none
      else
        let parsedSlotTime := parseHHmm s
        let year := natDigits sd.year
        let month := pad2 sd.month
        let day := pad2 sd.day
        let hours := match parsedSlotTime with
          | some hm => pad2 hm.1
          | none => "NaN".toList
        let minutes := match parsedSlotTime with
          | some hm => pad2 hm.2
          | none => "NaN".toList
        some (encodeURIComponent
          (year ++ '-' :: month ++ '-' :: day ++ 'T' :: hours ++ ':' :: minutes))
  | _, _ => none

/-- The wall-clock slot string the spec describes: `YYYY-MM-DDTHH:MM`
built verbatim from the date components and the parsed slot time, with no
timezone offset applied (the year rendered as a plain decimal, the other
components zero-padded to two digits). -/
def utcDateTimeString (y m d hh mi : Nat) : List Char :=
  natDigits y ++ '-' :: pad2 m ++ '-' :: pad2 d ++ 'T' :: pad2 hh ++ ':' :: pad2 mi

/-- C4: the two-branch contract of `handleSelectSlot`: with no selected
date or a `null` slot the stored slot is cleared; otherwise, for a slot
label parsing as "HH:mm", the stored slot is the percent-encoding of the
zero-padded wall-clock string built verbatim from the date components and
the parsed hour/minute, with no timezone offset applied. -/
theorem handleSelectSlot_contract (sd : CalendarDate) (s : List Char)
    (hh mi : Nat) (hparse : parseHHmm s = some (hh, mi)) :
    (∀ slot, handleSelectSlot none slot = none)
    ∧ handleSelectSlot (some sd) none = none
    ∧ handleSelectSlot (some sd) (some s)
        = some (encodeURIComponent (utcDateTimeString sd.year sd.month sd.day hh mi)) := by
  refine ⟨fun slot => rfl, rfl, ?_⟩
  have hne : s.isEmpty = false := by
    cases s with
    | nil => simp [parseHHmm] at hparse
    | cons c t => rfl
  simp [handleSelectSlot, hne, hparse, utcDateTimeString]

/-- C4 witness: selecting slot "09:00" on 2025-06-03 stores the encoded
string "2025-06-03T09%3A00". -/
theorem handleSelectSlot_contract_witness :
    parseHHmm ("09:00".toList) = some (9, 0)
    ∧ handleSelectSlot (some ⟨2025, 6, 3⟩) (some ("09:00".toList))
        = some (encodeURIComponent (utcDateTimeString 2025 6 3 9 0))
    ∧ handleSelectSlot (some ⟨2025, 6, 3⟩) (some ("09:00".toList))
        = some ("2025-06-03T09%3A00".toList) :=
  ⟨by decide,
   (handleSelectSlot_contract ⟨2025, 6, 3⟩ ("09:00".toList) 9 0 (by decide)).2.2,
   by decide⟩

/-! ## Slot resolution — `booking-calendar.tsx`, `timeSlots` -/

/-- `AvailabilityDay` as consumed by `timeSlots`: `dateStr` and `day` may
be absent (`===` against a string is then false), `slots` may be absent
(`slots || []`). -/
structure AvailabilityDay where
  dateStr : Option (List Char) := none
  day : Option (List Char) := none
  isAvailable : Bool := true
  slots : Option (List (List Char)) := none
deriving DecidableEq, Repr

/-- The body of the `timeSlots` memo once a date and data are present:
find an exact `dateStr` match first; otherwise fall back to the weekday
name; otherwise no slots. -/
def timeSlotsResolve (days : List AvailabilityDay)
    (selectedDateStr dayOfWeek : List Char) : List (List Char) :=
  match days.find? (fun r => r.dateStr == some selectedDateStr) with
  | some exactDateMatch => exactDateMatch.slots.getD []
  | none =>
      match days.find? (fun r => r.day == some dayOfWeek) with
      | some dayOfWeekMatch => dayOfWeekMatch.slots.getD []
      | none => []

/-- The `timeSlots` memo of `BookingCalendar`: `[]` when no date is
selected or no availability data is loaded; otherwise resolve against the
localized "yyyy-MM-dd" string and upper-cased "EEEE" weekday name of the
selected date.  The two localization functions (date-fns `format` over the
active timezone) are passed as parameters. -/
def timeSlots (selectedDate : Option CalendarDate)
    (data : Option (List AvailabilityDay))
    (fmtYMD fmtWeekdayUpper : CalendarDate → List Char) : List (List Char) :=
  match selectedDate, data with
  | some sd, some days => timeSlotsResolve days (fmtYMD sd) (fmtWeekdayUpper sd)
  | _, _ => []

/-- C1: three-step slot-resolution precedence.  An exact `dateStr` match
returns that entry's slots (even when a weekday entry for the same weekday
exists, since no condition on weekday entries is needed); with no exact
match, a weekday-name match returns that entry's slots; with neither, the
resolution is the empty list. -/
theorem timeSlots_resolution_precedence (sd : CalendarDate)
    (days : List AvailabilityDay) (fmtYMD fmtWeekdayUpper : CalendarDate → List Char) :
    (∀ e, days.find? (fun r => r.dateStr == some (fmtYMD sd)) = some e →
        timeSlots (some sd) (some days) fmtYMD fmtWeekdayUpper = e.slots.getD [])
    ∧ (days.find? (fun r => r.dateStr == some (fmtYMD sd)) = none →
        ∀ e, days.find? (fun r => r.day == some (fmtWeekdayUpper sd)) = some e →
        timeSlots (some sd) (some days) fmtYMD fmtWeekdayUpper = e.slots.getD [])
    ∧ (days.find? (fun r => r.dateStr == some (fmtYMD sd)) = none →
        days.find? (fun r => r.day == some (fmtWeekdayUpper sd)) = none →
        timeSlots (some sd) (some days) fmtYMD fmtWeekdayUpper = []) := by
  refine ⟨?_, ?_, ?_⟩
  · intro e he
    simp [timeSlots, timeSlotsResolve, he]
  · intro hnone e he
    simp [timeSlots, timeSlotsResolve, hnone, he]
  · intro h1 h2
    simp [timeSlots, timeSlotsResolve, h1, h2]

/-- C1 witness: with both an exact-date entry and a weekday entry for the
same weekday present, the exact-date entry's slots win; and on a list with
only a weekday entry, the weekday fallback fires; on an empty list the
result is empty. -/
theorem timeSlots_resolution_precedence_witness :
    timeSlots (some ⟨2025, 6, 3⟩)
        (some [{ day := some ("TUESDAY".toList),
                 slots := some ["10:00".toList] },
               { dateStr := some ("2025-06-03".toList),
                 day := some ("TUESDAY".toList),
                 slots := some ["09:00".toList, "09:30".toList] }])
        (fun _ => "2025-06-03".toList) (fun _ => "TUESDAY".toList)
      = ["09:00".toList, "09:30".toList] := by
  have h := (timeSlots_resolution_precedence ⟨2025, 6, 3⟩
      [{ day := some ("TUESDAY".toList), slots := some ["10:00".toList] },
       { dateStr := some ("2025-06-03".toList), day := some ("TUESDAY".toList),
         slots := some ["09:00".toList, "09:30".toList] }]
      (fun _ => "2025-06-03".toList) (fun _ => "TUESDAY".toList)).1
      { dateStr := some ("2025-06-03".toList), day := some ("TUESDAY".toList),
        slots := some ["09:00".toList, "09:30".toList] } (by decide)
  exact h

/-! ## Date-change handler — `booking-calendar.tsx`, `handleChangeDate` -/

/-- The booking-state slice `handleChangeDate` touches. -/
structure BookingSelectionState where
  selectedDate : Option CalendarDate
  selectedSlot : Option (List Char)
deriving DecidableEq, Repr

/-- The three store/query operations `handleChangeDate` performs, in
program order: `handleSelectSlot(null)`, then `handleSelectDate`, then the
(deferred) availability-query invalidation. -/
inductive BookingAction where
  | clearSlot
  | setDate (d : CalendarDate)
  | invalidateAvailability
deriving DecidableEq

/-- Effect of one action on the booking-selection state.  `clearSlot` goes
through `handleSelectSlot` with a `null` slot (as the source does);
`setDate` is `handleSelectDate`; the query invalidation does not touch the
store. -/
def runBookingAction (st : BookingSelectionState) : BookingAction → BookingSelectionState
  | .clearSlot => { st with selectedSlot := handleSelectSlot st.selectedDate none }
  | .setDate d => { st with selectedDate := some d }
  | .invalidateAvailability => st

/-- `handleChangeDate(newDate)` of `BookingCalendar` as its emitted
operation sequence: clear the selected slot first, then store the new
date, then invalidate the availability query (inside `setTimeout`). -/
def handleChangeDate (newDate : CalendarDate) : List BookingAction :=
  [.clearSlot, .setDate newDate, .invalidateAvailability]

/-- C5: in every execution of `handleChangeDate`, the slot clear precedes
the date change, which precedes the query invalidation; consequently, from
the moment the clear has run (every non-empty prefix of the operation
sequence, hence in particular when the new date is stored and when the
availability query is invalidated), the stored slot is `null` — no slot
derived from the previous date survives. -/
theorem handleChangeDate_clears_slot_first (st : BookingSelectionState)
    (d : CalendarDate) :
    ((handleChangeDate d).get? 0 = some .clearSlot
      ∧ (handleChangeDate d).get? 1 = some (.setDate d)
      ∧ (handleChangeDate d).get? 2 = some .invalidateAvailability)
    ∧ ∀ k, 1 ≤ k →
        (((handleChangeDate d).take k).foldl runBookingAction st).selectedSlot = none
        ∧ (3 ≤ k →
            ((handleChangeDate d).take k).foldl runBookingAction st
              = { selectedDate := some d, selectedSlot := none }) := by
  refine ⟨⟨rfl, rfl, rfl⟩, ?_⟩
  intro k hk
  match k, hk with
  | 1, _ =>
      exact ⟨by obtain ⟨sd, sl⟩ := st; cases sd <;> rfl, by omega⟩
  | 2, _ =>
      exact ⟨by obtain ⟨sd, sl⟩ := st; cases sd <;> rfl, by omega⟩
  | n + 3, _ =>
      have htake : (handleChangeDate d).take (n + 3) = handleChangeDate d :=
        List.take_of_length_le (by simp [handleChangeDate])
      exact ⟨by rw [htake]; obtain ⟨sd, sl⟩ := st; cases sd <;> rfl,
             fun _ => by rw [htake]; obtain ⟨sd, sl⟩ := st; cases sd <;> rfl⟩

/-- C5 witness: starting from a state holding a slot of the previous date,
changing the date leaves the slot cleared once the clear has run, and the
final state stores the new date with no slot. -/
theorem handleChangeDate_clears_slot_first_witness :
    (((handleChangeDate ⟨2025, 6, 4⟩).take 2).foldl runBookingAction
        { selectedDate := some ⟨2025, 6, 3⟩,
          selectedSlot := some ("2025-06-03T09%3A00".toList) }).selectedSlot = none :=
  ((handleChangeDate_clears_slot_first
      { selectedDate := some ⟨2025, 6, 3⟩,
        selectedSlot := some ("2025-06-03T09%3A00".toList) }
      ⟨2025, 6, 4⟩).2 2 (by decide)).1

/-! ## The `date` query parameter codec — `use-booking-state.ts`,
`useQueryState("date", { parse, serialize })`.  The `parse` side rebuilds
a `CalendarDate`, whose constructor constrains month and day; its model
follows the calendar arithmetic below. -/

/-- `serialize` of the `date` query state:
`` `${value.year}-${value.month}-${value.day}` `` — the components are not
zero-padded. -/
def serializeDate (value : CalendarDate) : List Char :=
  natDigits value.year ++ ('-' :: (natDigits value.month ++ ('-' :: natDigits value.day)))

/-- Model of `String.prototype.split(sep)` for a one-character separator. -/
def splitOnChar (sep : Char) : List Char → List (List Char)
  | [] => [[]]
  | c :: t =>
      if c = sep then [] :: splitOnChar sep t
      else
        match splitOnChar sep t with
        | [] => [[c]]
        | h :: r => (c :: h) :: r

/-! ### Decimal-rendering lemmas -/

theorem digitChar10_isDigit (n : Nat) : (digitChar10 n).isDigit = true := by
  have h : n % 10 < 10 := Nat.mod_lt _ (by norm_num)
  unfold digitChar10
  interval_cases h : n % 10 <;> decide

theorem digitChar10_toNat (n : Nat) : (digitChar10 n).toNat = 48 + n % 10 := by
  have h : n % 10 < 10 := Nat.mod_lt _ (by norm_num)
  unfold digitChar10
  interval_cases h : n % 10 <;> decide

theorem digitsVal_append_singleton (xs : List Char) (c : Char) :
    digitsVal (xs ++ [c]) = 10 * digitsVal xs + (c.toNat - 48) := by
  simp [digitsVal, List.foldl_append]

theorem natDigitsGo_digits (fuel : Nat) :
    ∀ n, n ≤ fuel → ∀ c ∈ natDigitsGo fuel n, c.isDigit = true := by
  induction fuel with
  | zero =>
      intro n hn c hc
      simp [natDigitsGo] at hc
      subst hc
      exact digitChar10_isDigit n
  | succ fuel ih =>
      intro n hn c hc
      unfold natDigitsGo at hc
      by_cases h10 : n < 10
      · simp [h10] at hc
        subst hc
        exact digitChar10_isDigit n
      · simp [h10] at hc
        rcases hc with hc | hc
        · have hdiv : n / 10 ≤ fuel := by
            have := Nat.div_lt_self (by omega : 0 < n) (by norm_num : 1 < 10)
            omega
          exact ih (n / 10) hdiv c hc
        · subst hc
          exact digitChar10_isDigit (n % 10)

theorem natDigitsGo_val (fuel : Nat) :
    ∀ n, n ≤ fuel → digitsVal (natDigitsGo fuel n) = n := by
  induction fuel with
  | zero =>
      intro n hn
      have : n = 0 := by omega
      subst this
      decide
  | succ fuel ih =>
      intro n hn
      unfold natDigitsGo
      by_cases h10 : n < 10
      · simp only [h10, if_true]
        simp [digitsVal, digitChar10_toNat]
        omega
      · simp only [h10, if_false]
        rw [digitsVal_append_singleton, digitChar10_toNat]
        have hdiv : n / 10 ≤ fuel := by
          have := Nat.div_lt_self (by omega : 0 < n) (by norm_num : 1 < 10)
          omega
        rw [ih (n / 10) hdiv]
        omega

theorem natDigits_digits (n : Nat) : ∀ c ∈ natDigits n, c.isDigit = true :=
  natDigitsGo_digits n n (Nat.le_refl n)

theorem natDigits_val (n : Nat) : digitsVal (natDigits n) = n :=
  natDigitsGo_val n n (Nat.le_refl n)

theorem natDigits_ne_nil (n : Nat) : natDigits n ≠ [] := by
  unfold natDigits
  cases n with
  | zero => decide
  | succ m =>
      unfold natDigitsGo
      split <;> simp

theorem takeWhile_eq_self_of_all {p : Char → Bool} :
    ∀ l : List Char, (∀ c ∈ l, p c = true) → l.takeWhile p = l := by
  intro l
  induction l with
  | nil => intro _; rfl
  | cons c t ih =>
      intro h
      have hc : p c = true := h c (by simp)
      have ht : t.takeWhile p = t := ih fun x hx => h x (by simp [hx])
      simp [List.takeWhile, hc, ht]

theorem parseIntJS_natDigits (n : Nat) : parseIntJS (natDigits n) = some n := by
  unfold parseIntJS
  rcases hnd : natDigits n with _ | ⟨c, t⟩
  · exact absurd hnd (natDigits_ne_nil n)
  · have hall := natDigits_digits n
    rw [hnd] at hall
    have hc : c.isDigit = true := hall c (by simp)
    simp only [hc, if_true]
    have htw : (c :: t).takeWhile Char.isDigit = c :: t :=
      takeWhile_eq_self_of_all (c :: t) hall
    rw [htw, ← hnd, natDigits_val]

theorem splitOnChar_no_sep (sep : Char) :
    ∀ a : List Char, (∀ c ∈ a, c ≠ sep) → splitOnChar sep a = [a] := by
  intro a
  induction a with
  | nil => intro _; rfl
  | cons c t ih =>
      intro h
      have hc : c ≠ sep := h c (by simp)
      simp only [splitOnChar, hc, if_false]
      rw [ih fun x hx => h x (by simp [hx])]

theorem splitOnChar_append (sep : Char) :
    ∀ (a rest : List Char), (∀ c ∈ a, c ≠ sep) →
      splitOnChar sep (a ++ sep :: rest) = a :: splitOnChar sep rest := by
  intro a
  induction a with
  | nil =>
      intro rest _
      simp [splitOnChar]
  | cons c t ih =>
      intro rest h
      have hc : c ≠ sep := h c (by simp)
      have ih' : splitOnChar sep (t ++ sep :: rest) = t :: splitOnChar sep rest :=
        ih rest fun x hx => h x (by simp [hx])
      simp only [List.cons_append, splitOnChar, hc, if_false]
      rw [show t.append (sep :: rest) = t ++ sep :: rest from rfl, ih']

theorem natDigits_no_dash (n : Nat) : ∀ c ∈ natDigits n, c ≠ '-' := by
  intro c hc
  have := natDigits_digits n c hc
  intro heq
  subst heq
  simp [Char.isDigit] at this

/-! ## Authenticated-API response error interceptor —
`src/lib/axios-client.ts` -/

/-- Response body of a failed request as the interceptor inspects it:
either a bare string (compared with `=== "Unauthorized"`) or a JSON object
carrying optional `message`/`errorCode` fields. -/
inductive RespBody where
  | strBody (s : List Char)
  | objBody (message : Option (List Char)) (errorCode : Option (List Char))
deriving DecidableEq, Repr

/-- `data?.message` as the interceptor reads it. -/
def RespBody.messageField : RespBody → Option (List Char)
  | .strBody _ => none
  | .objBody m _ => m

/-- `data?.errorCode` as the interceptor reads it. -/
def RespBody.errorCodeField : RespBody → Option (List Char)
  | .strBody _ => none
  | .objBody _ e => e

/-- The client-side session slice the interceptor clears (user, access
token, expiry in the zustand store). -/
structure SessionStore where
  user : Option (List Char)
  accessToken : Option (List Char)
  expiresAt : Option Nat
deriving DecidableEq, Repr

/-- The cleared session (`clearUser`, `clearAccessToken`,
`clearExpiresAt`). -/
def clearedSession : SessionStore := ⟨none, none, none⟩

/-- The custom error the interceptor rejects with: server `message` and an
`errorCode` defaulting to "UNKNOWN_ERROR". -/
structure CustomError where
  message : Option (List Char)
  errorCode : List Char
deriving DecidableEq, Repr

/-- Outcome of the authenticated-API response error interceptor. -/
structure InterceptOutcome where
  session : SessionStore
  navigatedToEntry : Bool
  rejectedWith : CustomError
deriving DecidableEq, Repr

/-- The error branch of `API.interceptors.response.use` in
`axios-client.ts`: the session is cleared and the browser navigated to "/"
precisely when the response body is the bare string "Unauthorized" AND the
status is 401; every error is then converted to a `CustomError` and the
promise rejected with it. -/
def apiResponseErrorInterceptor (store : SessionStore) (status : Nat)
    (data : RespBody) : InterceptOutcome :=
  let isAuthExpiry := data = RespBody.strBody ("Unauthorized".toList) ∧ status = 401
  { session := if isAuthExpiry then clearedSession else store
    navigatedToEntry := if isAuthExpiry then true else false
    rejectedWith :=
      { message := data.messageField
        errorCode := data.errorCodeField.getD ("UNKNOWN_ERROR".toList) } }

/-- C7 counterexample: a 401 response whose body is a JSON object (not the
bare string "Unauthorized") does NOT clear the session and does not
navigate away — the claim "every response with HTTP status 401 triggers a
full client-side session clear followed by forced navigation" is false on
the code. -/
theorem apiResponseErrorInterceptor_401_counterexample :
    (apiResponseErrorInterceptor
        ⟨some ("alice".toList), some ("tok".toList), some 12345⟩ 401
        (.objBody (some ("Token expired".toList)) none)).session
      = ⟨some ("alice".toList), some ("tok".toList), some 12345⟩
    ∧ (apiResponseErrorInterceptor
        ⟨some ("alice".toList), some ("tok".toList), some 12345⟩ 401
        (.objBody (some ("Token expired".toList)) none)).navigatedToEntry = false
    ∧ (⟨some ("alice".toList), some ("tok".toList), some 12345⟩ : SessionStore)
        ≠ clearedSession := by
  refine ⟨by decide, by decide, by decide⟩

/-- The interceptor's effect when the 401/"Unauthorized" test holds. -/
theorem apiResponseErrorInterceptor_pos (store : SessionStore) (status : Nat)
    (data : RespBody)
    (h : data = RespBody.strBody ("Unauthorized".toList) ∧ status = 401) :
    (apiResponseErrorInterceptor store status data).session = clearedSession
    ∧ (apiResponseErrorInterceptor store status data).navigatedToEntry = true := by
  simp [apiResponseErrorInterceptor, h]

/-- The interceptor's effect when the 401/"Unauthorized" test fails. -/
theorem apiResponseErrorInterceptor_neg (store : SessionStore) (status : Nat)
    (data : RespBody)
    (h : ¬ (data = RespBody.strBody ("Unauthorized".toList) ∧ status = 401)) :
    (apiResponseErrorInterceptor store status data).session = store
    ∧ (apiResponseErrorInterceptor store status data).navigatedToEntry = false := by
  simp [apiResponseErrorInterceptor, h]
  constructor
  · intro hd hs
    exact absurd ⟨hd, hs⟩ h
  · intro hd hs
    exact h ⟨hd, hs⟩

/-- C7 (amended): an authenticated-API error response triggers the full
session clear (user, access token, expiry) and forced navigation to the
entry page exactly when its status is 401 AND its body is the bare string
"Unauthorized"; every other error response leaves the session untouched
and does not navigate; in all cases the interceptor rejects with the
custom error built from the body's `message` and `errorCode` (defaulting
to "UNKNOWN_ERROR"). -/
theorem apiResponseErrorInterceptor_contract (store : SessionStore)
    (status : Nat) (data : RespBody)
    (hne : store ≠ clearedSession) :
    ((apiResponseErrorInterceptor store status data).session = clearedSession
        ∧ (apiResponseErrorInterceptor store status data).navigatedToEntry = true
      ↔ (status = 401 ∧ data = RespBody.strBody ("Unauthorized".toList)))
    ∧ (¬ (status = 401 ∧ data = RespBody.strBody ("Unauthorized".toList)) →
        (apiResponseErrorInterceptor store status data).session = store
        ∧ (apiResponseErrorInterceptor store status data).navigatedToEntry = false)
    ∧ (apiResponseErrorInterceptor store status data).rejectedWith
        = { message := data.messageField
            errorCode := data.errorCodeField.getD ("UNKNOWN_ERROR".toList) } := by
  refine ⟨?_, ?_, rfl⟩
  · by_cases hcase : data = RespBody.strBody ("Unauthorized".toList) ∧ status = 401
    · have hpos := apiResponseErrorInterceptor_pos store status data hcase
      exact ⟨fun _ => ⟨hcase.2, hcase.1⟩, fun _ => hpos⟩
    · have hneg := apiResponseErrorInterceptor_neg store status data hcase
      constructor
      · intro hcon
        exact absurd (hcon.1.symm.trans hneg.1).symm hne
      · intro hcon
        exact absurd ⟨hcon.2, hcon.1⟩ hcase
  · intro hnot
    exact apiResponseErrorInterceptor_neg store status data
      fun hcon => hnot ⟨hcon.2, hcon.1⟩

/-- C7 witness: a 401 response with the bare "Unauthorized" body clears a
non-empty session and navigates to the entry page; a 500 response on the
same session leaves it untouched. -/
theorem apiResponseErrorInterceptor_contract_witness :
    ((⟨some ("alice".toList), some ("tok".toList), some 12345⟩ : SessionStore)
        ≠ clearedSession)
    ∧ ((apiResponseErrorInterceptor
          ⟨some ("alice".toList), some ("tok".toList), some 12345⟩ 401
          (.strBody ("Unauthorized".toList))).session = clearedSession
        ∧ (apiResponseErrorInterceptor
          ⟨some ("alice".toList), some ("tok".toList), some 12345⟩ 401
          (.strBody ("Unauthorized".toList))).navigatedToEntry = true)
    ∧ ((apiResponseErrorInterceptor
          ⟨some ("alice".toList), some ("tok".toList), some 12345⟩ 500
          (.objBody (some ("boom".toList)) none)).session
            = ⟨some ("alice".toList), some ("tok".toList), some 12345⟩) :=
  ⟨by decide,
   ((apiResponseErrorInterceptor_contract
      ⟨some ("alice".toList), some ("tok".toList), some 12345⟩ 401
      (.strBody ("Unauthorized".toList)) (by decide)).1).mpr ⟨rfl, rfl⟩,
   ((apiResponseErrorInterceptor_contract
      ⟨some ("alice".toList), some ("tok".toList), some 12345⟩ 500
      (.objBody (some ("boom".toList)) none) (by decide)).2.1 (by simp)).1⟩

/-! ## OAuth return handler — `useOAuthHandler` -/

/-- The four OAuth query parameters the handler reads
(`searchParams.get` yields `null` for an absent parameter). -/
structure OAuthParams where
  success : Option (List Char)
  error : Option (List Char)
  app_type : Option (List Char)
  error_message : Option (List Char)
deriving DecidableEq, Repr

/-- JS truthiness of a `searchParams.get` result: present and non-empty. -/
def jsTruthy (o : Option (List Char)) : Bool := !(jsFalsy o)

/-- A displayed toast notification. -/
inductive ToastKind where
  | success (msg : List Char)
  | error (msg : List Char)
deriving DecidableEq, Repr

/-- `OAUTH_SUCCESS_MESSAGES[success] || "Integration connected successfully!"`. -/
def oauthSuccessMessage (key : List Char) : List Char :=
  if key = "microsoft_connected".toList then
    "Outlook Calendar connected successfully!".toList
  else if key = "google_connected".toList then
    "Google Calendar connected successfully!".toList
  else if key = "zoom_connected".toList then
    "Zoom connected successfully!".toList
  else "Integration connected successfully!".toList

/-- `OAUTH_ERROR_MESSAGES[error] || errorMessage || "Failed to connect
integration. Please try again."`. -/
def oauthErrorMessage (key : List Char) (errorMessage : Option (List Char)) :
    List Char :=
  if key = "microsoft_error".toList then
    "Failed to connect Outlook Calendar. Please try again.".toList
  else if key = "google_error".toList then
    "Failed to connect Google Calendar. Please try again.".toList
  else if key = "zoom_error".toList then
    "Failed to connect Zoom. Please try again.".toList
  else if jsTruthy errorMessage then errorMessage.getD []
  else "Failed to connect integration. Please try again.".toList

/-- The `useEffect` body of `useOAuthHandler`: reads the four parameters
up front, then (1) if `success` and `app_type` are truthy, shows the
success toast and deletes `success` and `app_type`; (2) if `error` and the
(originally captured) `app_type` are truthy, shows the error toast and
deletes `error`, `app_type` and `error_message`.  Returns the resulting
query parameters and the displayed toasts. -/
def useOAuthHandlerEffect (p : OAuthParams) : OAuthParams × List ToastKind :=
  let success := p.success
  let error := p.error
  let appType := p.app_type
  let errorMessage := p.error_message
  let stepSuccess := jsTruthy success && jsTruthy appType
  let p1 := if stepSuccess then { p with success := none, app_type := none } else p
  let toasts1 :=
    if stepSuccess then [ToastKind.success (oauthSuccessMessage (success.getD []))]
    else []
  let stepErr := jsTruthy error && jsTruthy appType
  let p2 :=
    if stepErr then { p1 with error := none, app_type := none, error_message := none }
    else p1
  let toasts2 :=
    if stepErr then [ToastKind.error (oauthErrorMessage (error.getD []) errorMessage)]
    else []
  (p2, toasts1 ++ toasts2)

/-- C8 counterexample: entering with `success=google_connected`,
`app_type=google` and a stray `error_message=oops` (no `error`), the
handler processes the success result and shows its notification, yet
`error_message` remains visible in the post-processing query string — the
claim that no OAuth parameter remains for every entry combination is false
on the code. -/
theorem useOAuthHandlerEffect_counterexample :
    (useOAuthHandlerEffect
        { success := some ("google_connected".toList), error := none,
          app_type := some ("google".toList),
          error_message := some ("oops".toList) }).2
      = [ToastKind.success ("Google Calendar connected successfully!".toList)]
    ∧ (useOAuthHandlerEffect
        { success := some ("google_connected".toList), error := none,
          app_type := some ("google".toList),
          error_message := some ("oops".toList) }).1.error_message
      = some ("oops".toList) := by
  refine ⟨by decide, by decide⟩

/-- C8 (amended): when `success` and `app_type` are both present
(non-empty), the handler shows a success notification and strips `success`
and `app_type`; when `error` and `app_type` are both present, it shows an
error notification and strips `error`, `app_type` and `error_message`;
when `app_type` is absent nothing is processed, and `error_message` is
only stripped by the error branch (it survives success-only processing). -/
theorem useOAuthHandlerEffect_contract (p : OAuthParams) :
    (jsTruthy p.success = true → jsTruthy p.app_type = true →
      (useOAuthHandlerEffect p).1.success = none
      ∧ (useOAuthHandlerEffect p).1.app_type = none
      ∧ ToastKind.success (oauthSuccessMessage (p.success.getD []))
          ∈ (useOAuthHandlerEffect p).2)
    ∧ (jsTruthy p.error = true → jsTruthy p.app_type = true →
      (useOAuthHandlerEffect p).1.error = none
      ∧ (useOAuthHandlerEffect p).1.app_type = none
      ∧ (useOAuthHandlerEffect p).1.error_message = none
      ∧ ToastKind.error (oauthErrorMessage (p.error.getD []) p.error_message)
          ∈ (useOAuthHandlerEffect p).2)
    ∧ (jsTruthy p.app_type = false →
        (useOAuthHandlerEffect p).1 = p ∧ (useOAuthHandlerEffect p).2 = [])
    ∧ (jsTruthy p.error = false →
        (useOAuthHandlerEffect p).1.error_message = p.error_message) := by
  refine ⟨?_, ?_, ?_, ?_⟩
  · intro hs ha
    by_cases he : jsTruthy p.error = true
    · simp [useOAuthHandlerEffect, hs, ha, he]
    · simp at he
      simp [useOAuthHandlerEffect, hs, ha, he]
  · intro he ha
    by_cases hs : jsTruthy p.success = true
    · simp [useOAuthHandlerEffect, hs, ha, he]
    · simp at hs
      simp [useOAuthHandlerEffect, hs, ha, he]
  · intro ha
    simp [useOAuthHandlerEffect, ha]
  · intro he
    by_cases hs : (jsTruthy p.success && jsTruthy p.app_type) = true
    · simp [useOAuthHandlerEffect, hs, he]
    · simp at hs
      simp [useOAuthHandlerEffect, hs, he]
      split <;> rfl

/-- C8 witness: an error return (`error=zoom_error`, `app_type=zoom`,
`error_message=denied`) strips all three error parameters. -/
theorem useOAuthHandlerEffect_contract_witness :
    (useOAuthHandlerEffect
        { success := none, error := some ("zoom_error".toList),
          app_type := some ("zoom".toList),
          error_message := some ("denied".toList) }).1.error = none
    ∧ (useOAuthHandlerEffect
        { success := none, error := some ("zoom_error".toList),
          app_type := some ("zoom".toList),
          error_message := some ("denied".toList) }).1.app_type = none
    ∧ (useOAuthHandlerEffect
        { success := none, error := some ("zoom_error".toList),
          app_type := some ("zoom".toList),
          error_message := some ("denied".toList) }).1.error_message = none :=
  have h := (useOAuthHandlerEffect_contract
      { success := none, error := some ("zoom_error".toList),
        app_type := some ("zoom".toList),
        error_message := some ("denied".toList) }).2.1 (by decide) (by decide)
  ⟨h.1, h.2.1, h.2.2.1⟩

/-! ## Proleptic-Gregorian day arithmetic (model of the ECMAScript
`Date.UTC` / `toISOString` built-ins, at minute granularity)

ECMAScript defines `MakeDay`/`YearFromTime` mathematically (the day count
of a civil date, and "the largest year whose first instant is ≤ t").  We
model instants as minutes since 0001-01-01T00:00Z; the constant epoch
offset of the real millisecond time value cancels in the
`Date.UTC`-then-`toISOString` composition `onSubmit` performs. -/

/-- Gregorian leap-year rule. -/
def isLeapYear (y : Nat) : Prop := (y % 4 = 0 ∧ y % 100 ≠ 0) ∨ y % 400 = 0

instance isLeapYear_decidable (y : Nat) : Decidable (isLeapYear y) := by
  unfold isLeapYear
  infer_instance

/-- Days in a month of a given year. -/
def daysInMonth (y m : Nat) : Nat :=
  if m = 2 then (if isLeapYear y then 29 else 28)
  else if m = 4 ∨ m = 6 ∨ m = 9 ∨ m = 11 then 30 else 31

/-- Days in a year. -/
def daysInYear (y : Nat) : Nat := if isLeapYear y then 366 else 365

/-- A calendar-valid (year, month, day) triple. -/
def validDate (y m d : Nat) : Prop :=
  1 ≤ m ∧ m ≤ 12 ∧ 1 ≤ d ∧ d ≤ daysInMonth y m

instance validDate_decidable (y m d : Nat) : Decidable (validDate y m d) := by
  unfold validDate
  infer_instance

/-- Days from 0001-01-01 to y-01-01 (for `y ≥ 1`). -/
def daysBeforeYear (y : Nat) : Nat :=
  365 * (y - 1) + (y - 1) / 4 - (y - 1) / 100 + (y - 1) / 400

/-- Days from y-01-01 to y-m-01. -/
def daysBeforeMonth (y : Nat) : Nat → Nat
  | 0 => 0
  | 1 => 0
  | m + 2 => daysBeforeMonth y (m + 1) + daysInMonth y (m + 1)

/-- 0-based day number of a civil date, counted from 0001-01-01; the
mathematical content of ECMAScript `MakeDay` (up to the constant epoch
offset). -/
def daysFromCivil (y m d : Nat) : Nat :=
  daysBeforeYear y + daysBeforeMonth y m + (d - 1)

/-- Minutes since 0001-01-01T00:00 of a civil date-time. -/
def minutesOfCivil (y m d hh mi : Nat) : Nat :=
  daysFromCivil y m d * 1440 + hh * 60 + mi

/-- Year extraction by stripping whole years (ECMAScript `YearFromTime`);
`fuel > rem / 365` suffices.  Returns the year and the 0-based day of
year. -/
def yearAndDoyGo : Nat → Nat → Nat → Nat × Nat
  | 0, y, rem => (y, rem)
  | fuel + 1, y, rem =>
      if rem < daysInYear y then (y, rem)
      else yearAndDoyGo fuel (y + 1) (rem - daysInYear y)

/-- Month extraction by stripping whole months (`MonthFromTime` /
`DateFromTime`).  Returns the month and the 1-based day of month. -/
def monthAndDomGo : Nat → Nat → Nat → Nat → Nat × Nat
  | 0, _, m, doy => (m, doy + 1)
  | fuel + 1, y, m, doy =>
      if doy < daysInMonth y m then (m, doy + 1)
      else monthAndDomGo fuel y (m + 1) (doy - daysInMonth y m)

/-- Civil date of a 0-based day number counted from 0001-01-01; the
mathematical content of `YearFromTime`/`MonthFromTime`/`DateFromTime`. -/
def civilFromDays (z : Nat) : Nat × Nat × Nat :=
  let yd := yearAndDoyGo (z + 1) 1 z
  let md := monthAndDomGo 11 yd.1 1 yd.2
  (yd.1, md.1, md.2)

theorem daysInYear_bounds (y : Nat) : 365 ≤ daysInYear y ∧ daysInYear y ≤ 366 := by
  unfold daysInYear
  split <;> omega

theorem daysBeforeYear_one : daysBeforeYear 1 = 0 := by decide

set_option maxHeartbeats 1600000 in
theorem daysBeforeYear_succ (y : Nat) (h : 1 ≤ y) :
    daysBeforeYear (y + 1) = daysBeforeYear y + daysInYear y := by
  unfold daysBeforeYear daysInYear
  split
  · rename_i hL
    have hLa : (y % 4 = 0 ∧ y % 100 ≠ 0) ∨ y % 400 = 0 := hL
    omega
  · rename_i hL
    have hLa : ¬ ((y % 4 = 0 ∧ y % 100 ≠ 0) ∨ y % 400 = 0) := hL
    omega

theorem daysBeforeMonth_succ (y m : Nat) (h : 1 ≤ m) :
    daysBeforeMonth y (m + 1) = daysBeforeMonth y m + daysInMonth y m := by
  match m, h with
  | 1, _ => rfl
  | k + 2, _ => rfl

theorem daysInYear_eq_month_sum (y : Nat) :
    daysInYear y = daysBeforeMonth y 12 + daysInMonth y 12 := by
  have e1 : daysBeforeMonth y 1 = 0 := rfl
  have e2 : daysBeforeMonth y 2 = daysBeforeMonth y 1 + daysInMonth y 1 :=
    daysBeforeMonth_succ y 1 (by omega)
  have e3 : daysBeforeMonth y 3 = daysBeforeMonth y 2 + daysInMonth y 2 :=
    daysBeforeMonth_succ y 2 (by omega)
  have e4 : daysBeforeMonth y 4 = daysBeforeMonth y 3 + daysInMonth y 3 :=
    daysBeforeMonth_succ y 3 (by omega)
  have e5 : daysBeforeMonth y 5 = daysBeforeMonth y 4 + daysInMonth y 4 :=
    daysBeforeMonth_succ y 4 (by omega)
  have e6 : daysBeforeMonth y 6 = daysBeforeMonth y 5 + daysInMonth y 5 :=
    daysBeforeMonth_succ y 5 (by omega)
  have e7 : daysBeforeMonth y 7 = daysBeforeMonth y 6 + daysInMonth y 6 :=
    daysBeforeMonth_succ y 6 (by omega)
  have e8 : daysBeforeMonth y 8 = daysBeforeMonth y 7 + daysInMonth y 7 :=
    daysBeforeMonth_succ y 7 (by omega)
  have e9 : daysBeforeMonth y 9 = daysBeforeMonth y 8 + daysInMonth y 8 :=
    daysBeforeMonth_succ y 8 (by omega)
  have e10 : daysBeforeMonth y 10 = daysBeforeMonth y 9 + daysInMonth y 9 :=
    daysBeforeMonth_succ y 9 (by omega)
  have e11 : daysBeforeMonth y 11 = daysBeforeMonth y 10 + daysInMonth y 10 :=
    daysBeforeMonth_succ y 10 (by omega)
  have e12 : daysBeforeMonth y 12 = daysBeforeMonth y 11 + daysInMonth y 11 :=
    daysBeforeMonth_succ y 11 (by omega)
  have d1 : daysInMonth y 1 = 31 := by simp [daysInMonth]
  have d3 : daysInMonth y 3 = 31 := by simp [daysInMonth]
  have d4 : daysInMonth y 4 = 30 := by simp [daysInMonth]
  have d5 : daysInMonth y 5 = 31 := by simp [daysInMonth]
  have d6 : daysInMonth y 6 = 30 := by simp [daysInMonth]
  have d7 : daysInMonth y 7 = 31 := by simp [daysInMonth]
  have d8 : daysInMonth y 8 = 31 := by simp [daysInMonth]
  have d9 : daysInMonth y 9 = 30 := by simp [daysInMonth]
  have d10 : daysInMonth y 10 = 31 := by simp [daysInMonth]
  have d11 : daysInMonth y 11 = 30 := by simp [daysInMonth]
  have d12 : daysInMonth y 12 = 31 := by simp [daysInMonth]
  unfold daysInYear
  by_cases hL : isLeapYear y
  · have d2 : daysInMonth y 2 = 29 := by simp [daysInMonth, hL]
    rw [if_pos hL]
    omega
  · have d2 : daysInMonth y 2 = 28 := by simp [daysInMonth, hL]
    rw [if_neg hL]
    omega

theorem yearAndDoyGo_spec :
    ∀ (fuel y rem Y doy : Nat), 1 ≤ y → rem < fuel + daysInYear y →
      yearAndDoyGo fuel y rem = (Y, doy) →
      1 ≤ Y ∧ y ≤ Y ∧ doy < daysInYear Y
      ∧ daysBeforeYear Y + doy = daysBeforeYear y + rem := by
  intro fuel
  induction fuel with
  | zero =>
      intro y rem Y doy hy hrem heq
      unfold yearAndDoyGo at heq
      obtain ⟨h1, h2⟩ := Prod.mk.injEq .. ▸ heq
      subst h1
      subst h2
      exact ⟨hy, Nat.le_refl y, by simpa using hrem, rfl⟩
  | succ fuel ih =>
      intro y rem Y doy hy hrem heq
      unfold yearAndDoyGo at heq
      by_cases hlt : rem < daysInYear y
      · rw [if_pos hlt] at heq
        obtain ⟨h1, h2⟩ := Prod.mk.injEq .. ▸ heq
        subst h1
        subst h2
        exact ⟨hy, Nat.le_refl y, hlt, rfl⟩
      · rw [if_neg hlt] at heq
        have hd := daysInYear_bounds y
        have hd1 := daysInYear_bounds (y + 1)
        have hrec := ih (y + 1) (rem - daysInYear y) Y doy (by omega) (by omega) heq
        obtain ⟨h1, h2, h3, h4⟩ := hrec
        refine ⟨h1, by omega, h3, ?_⟩
        rw [h4, daysBeforeYear_succ y hy]
        omega

theorem monthAndDomGo_spec :
    ∀ (fuel y m doy M D : Nat), 1 ≤ m → m + fuel = 12 →
      doy + daysBeforeMonth y m < daysInYear y →
      monthAndDomGo fuel y m doy = (M, D) →
      1 ≤ M ∧ M ≤ 12 ∧ 1 ≤ D ∧ D ≤ daysInMonth y M
      ∧ daysBeforeMonth y M + (D - 1) = daysBeforeMonth y m + doy := by
  intro fuel
  induction fuel with
  | zero =>
      intro y m doy M D hm hfuel hdoy heq
      have hm12 : m = 12 := by omega
      subst hm12
      unfold monthAndDomGo at heq
      obtain ⟨h1, h2⟩ := Prod.mk.injEq .. ▸ heq
      subst h1
      subst h2
      have hsum := daysInYear_eq_month_sum y
      exact ⟨by omega, by omega, by omega, by omega, by omega⟩
  | succ fuel ih =>
      intro y m doy M D hm hfuel hdoy heq
      unfold monthAndDomGo at heq
      by_cases hlt : doy < daysInMonth y m
      · rw [if_pos hlt] at heq
        obtain ⟨h1, h2⟩ := Prod.mk.injEq .. ▸ heq
        subst h1
        subst h2
        exact ⟨hm, by omega, by omega, by omega, by omega⟩
      · rw [if_neg hlt] at heq
        have hstep := daysBeforeMonth_succ y m hm
        have hrec := ih y (m + 1) (doy - daysInMonth y m) M D (by omega) (by omega)
          (by omega) heq
        obtain ⟨h1, h2, h3, h4, h5⟩ := hrec
        refine ⟨by omega, h2, h3, h4, ?_⟩
        rw [h5, hstep]
        omega

/-- Round trip: every day number is mapped to a valid civil date whose day
number it is. -/
theorem civilFromDays_spec (z : Nat) :
    1 ≤ (civilFromDays z).1
    ∧ validDate (civilFromDays z).1 (civilFromDays z).2.1 (civilFromDays z).2.2
    ∧ daysFromCivil (civilFromDays z).1 (civilFromDays z).2.1 (civilFromDays z).2.2
        = z := by
  rcases hY : yearAndDoyGo (z + 1) 1 z with ⟨Y, doy⟩
  have hb1 := daysInYear_bounds 1
  have hyd := yearAndDoyGo_spec (z + 1) 1 z Y doy (Nat.le_refl 1) (by omega) hY
  obtain ⟨hy1, _, hdoy, hsum⟩ := hyd
  rcases hM : monthAndDomGo 11 Y 1 doy with ⟨M, D⟩
  have hdbm1 : daysBeforeMonth Y 1 = 0 := rfl
  have hmd := monthAndDomGo_spec 11 Y 1 doy M D (Nat.le_refl 1) (by omega)
    (by omega) hM
  obtain ⟨hm1, hm2, hd1, hd2, hmsum⟩ := hmd
  have hciv : civilFromDays z = (Y, M, D) := by
    unfold civilFromDays
    rw [hY]
    simp [hM]
  rw [hciv]
  have hdby1 : daysBeforeYear 1 = 0 := daysBeforeYear_one
  refine ⟨hy1, ⟨hm1, hm2, hd1, hd2⟩, ?_⟩
  show daysBeforeYear Y + daysBeforeMonth Y M + (D - 1) = z
  omega

/-! ## The `date` parameter parse model and round trip (C10) -/

/-- Model of the `@internationalized/date` `CalendarDate` constructor's
`constrain` step (Gregorian): the month is clamped into `1..12`, then the
day into `1..` the length of that month.  The year is kept as given (era
balancing for non-positive years is not modelled; the round-trip theorem
only uses positive years). -/
def constrainCalendarDate (y m d : Nat) : CalendarDate :=
  let m2 := max 1 (min 12 m)
  let d2 := max 1 (min (daysInMonth y m2) d)
  ⟨y, m2, d2⟩

/-- `parse` of the `date` query state: split on "-", `parseInt` the first
three components and construct `new CalendarDate(...)`, whose constructor
constrains month and day.  A missing component or a non-numeric one gives
`NaN` arguments, modelled as `none`. -/
def parseDateParam (value : List Char) : Option CalendarDate :=
  match splitOnChar '-' value with
  | p0 :: p1 :: p2 :: _ =>
      match parseIntJS p0, parseIntJS p1, parseIntJS p2 with
      | some y, some m, some d => some (constrainCalendarDate y m d)
      | _, _, _ => none
  | _ => none

/-- Constraining is a no-op on components already within the constructor's
ranges. -/
theorem constrainCalendarDate_eq_of_valid (y m d : Nat) (hc : validDate y m d) :
    constrainCalendarDate y m d = ⟨y, m, d⟩ := by
  obtain ⟨hm1, hm12, hd1, hdim⟩ := hc
  show (⟨y, max 1 (min 12 m),
      max 1 (min (daysInMonth y (max 1 (min 12 m))) d)⟩ : CalendarDate)
    = ⟨y, m, d⟩
  have hm2 : max 1 (min 12 m) = m := by omega
  rw [hm2]
  have hd2 : max 1 (min (daysInMonth y m) d) = d := by omega
  rw [hd2]

/-- C10: the `date` URL query parameter round-trips.  Serialization does
not zero-pad; the parser splits on "-", `parseInt`s each component and
rebuilds a `CalendarDate` — whose constructor's constraining is a no-op on
the already-constrained components every real `CalendarDate` has — so
every `CalendarDate` (positive year, month and day within the constrained
ranges) survives the round trip. -/
theorem dateParam_roundtrip (y m d : Nat) (_hy : 0 < y)
    (hconstrained : validDate y m d) :
    parseDateParam (serializeDate ⟨y, m, d⟩) = some ⟨y, m, d⟩ := by
  unfold parseDateParam serializeDate
  have hsplit : splitOnChar '-'
      (natDigits y ++ ('-' :: (natDigits m ++ ('-' :: natDigits d))))
      = natDigits y :: natDigits m :: [natDigits d] := by
    rw [splitOnChar_append '-' (natDigits y) _ (natDigits_no_dash y)]
    rw [splitOnChar_append '-' (natDigits m) _ (natDigits_no_dash m)]
    rw [splitOnChar_no_sep '-' (natDigits d) (natDigits_no_dash d)]
  simp only at hsplit ⊢
  rw [hsplit]
  simp [parseIntJS_natDigits, constrainCalendarDate_eq_of_valid y m d hconstrained]

/-- C10 witness: (2025, 6, 3) — a valid June date — serializes to the
unpadded "2025-6-3" and parses back to (2025, 6, 3). -/
theorem dateParam_roundtrip_witness :
    serializeDate ⟨2025, 6, 3⟩ = "2025-6-3".toList
    ∧ (0 < 2025 ∧ validDate 2025 6 3)
    ∧ parseDateParam (serializeDate ⟨2025, 6, 3⟩) = some ⟨2025, 6, 3⟩ :=
  ⟨by decide, ⟨by decide, by decide⟩,
   dateParam_roundtrip 2025 6 3 (by decide) (by decide)⟩

/-! ## Zero-padded rendering lemmas (for the ISO string built by
`toISOString` and the slot matcher) -/

/-- Four-digit zero padding (the year field of `toISOString`). -/
def pad4 (n : Nat) : List Char := padLeft 4 (natDigits n)

theorem natDigitsGo_length_le :
    ∀ (fuel n k : Nat), n ≤ fuel → n < 10 ^ k → 1 ≤ k →
      (natDigitsGo fuel n).length ≤ k := by
  intro fuel
  induction fuel with
  | zero =>
      intro n k hn hk h1
      have : n = 0 := by omega
      subst this
      simpa [natDigitsGo] using h1
  | succ fuel ih =>
      intro n k hn hk h1
      unfold natDigitsGo
      by_cases h10 : n < 10
      · rw [if_pos h10]
        simpa using h1
      · rw [if_neg h10]
        match k, h1 with
        | 1, _ =>
            exfalso
            simp at hk
            omega
        | k + 2, _ =>
            have hdiv : n / 10 ≤ fuel := by
              have := Nat.div_lt_self (by omega : 0 < n) (by norm_num : 1 < 10)
              omega
            have hpow : n / 10 < 10 ^ (k + 1) := by
              have hmul : n < 10 * 10 ^ (k + 1) := by
                have : (10 : Nat) ^ (k + 2) = 10 * 10 ^ (k + 1) := by ring
                omega
              exact Nat.div_lt_of_lt_mul hmul
            have := ih (n / 10) (k + 1) hdiv hpow (by omega)
            simp [List.length_append]
            omega

theorem natDigits_length_le (n k : Nat) (hk : n < 10 ^ k) (h1 : 1 ≤ k) :
    (natDigits n).length ≤ k :=
  natDigitsGo_length_le n n k (Nat.le_refl n) hk h1

theorem digitsVal_replicate_zero (j : Nat) (s : List Char) :
    digitsVal (List.replicate j '0' ++ s) = digitsVal s := by
  have h0 : ∀ (i : Nat),
      List.foldl (fun a c => 10 * a + (c.toNat - 48)) 0 (List.replicate i '0') = 0 := by
    intro i
    induction i with
    | zero => rfl
    | succ i ihi => simpa [List.replicate_succ] using ihi
  unfold digitsVal
  rw [List.foldl_append, h0 j]

theorem padLeft_digits (k n : Nat) :
    ∀ c ∈ padLeft k (natDigits n), c.isDigit = true := by
  intro c hc
  unfold padLeft at hc
  rw [List.mem_append] at hc
  rcases hc with hc | hc
  · have : c = '0' := List.eq_of_mem_replicate hc
    subst this
    decide
  · exact natDigits_digits n c hc

theorem pad4_spec (n : Nat) (h : n ≤ 9999) :
    (pad4 n).length = 4 ∧ (∀ c ∈ pad4 n, c.isDigit = true)
    ∧ digitsVal (pad4 n) = n := by
  have hlen : (natDigits n).length ≤ 4 :=
    natDigits_length_le n 4 (by norm_num; omega) (by norm_num)
  refine ⟨?_, padLeft_digits 4 n, ?_⟩
  · unfold pad4 padLeft
    simp [List.length_append]
    omega
  · unfold pad4 padLeft
    rw [digitsVal_replicate_zero, natDigits_val]

theorem pad2_spec (n : Nat) (h : n ≤ 99) :
    (pad2 n).length = 2 ∧ (∀ c ∈ pad2 n, c.isDigit = true)
    ∧ digitsVal (pad2 n) = n := by
  have hlen : (natDigits n).length ≤ 2 :=
    natDigits_length_le n 2 (by norm_num; omega) (by norm_num)
  refine ⟨?_, padLeft_digits 2 n, ?_⟩
  · unfold pad2 padLeft
    simp [List.length_append]
    omega
  · unfold pad2 padLeft
    rw [digitsVal_replicate_zero, natDigits_val]

theorem list_eq_of_length_four {α : Type} (l : List α) (h : l.length = 4) :
    ∃ a b c d, l = [a, b, c, d] := by
  match l, h with
  | [a, b, c, d], _ => exact ⟨a, b, c, d, rfl⟩

theorem list_eq_of_length_two {α : Type} (l : List α) (h : l.length = 2) :
    ∃ a b, l = [a, b] := by
  match l, h with
  | [a, b], _ => exact ⟨a, b, rfl⟩

/-! ## Booking submission times — `booking-calendar.tsx`, `onSubmit`
(BookingForm) -/

/-- Match the fixed-shape regex
`(\d{4})-(\d{2})-(\d{2})T(\d{2}):(\d{2})` at the head of the string,
returning the five captured numbers. -/
def matchDateTimeAt (s : List Char) : Option (Nat × Nat × Nat × Nat × Nat) :=
  match s with
  | y1 :: y2 :: y3 :: y4 :: '-' :: o1 :: o2 :: '-' :: d1 :: d2 :: 'T' ::
      h1 :: h2 :: ':' :: n1 :: n2 :: _ =>
      if y1.isDigit && y2.isDigit && y3.isDigit && y4.isDigit &&
          o1.isDigit && o2.isDigit && d1.isDigit && d2.isDigit &&
          h1.isDigit && h2.isDigit && n1.isDigit && n2.isDigit then
        some (digitsVal [y1, y2, y3, y4], digitsVal [o1, o2], digitsVal [d1, d2],
          digitsVal [h1, h2], digitsVal [n1, n2])
      else none
  | _ => none

/-- Leftmost match of the date-time regex (`String.prototype.match`): try
each start position left to right.  The pattern is fixed-width, so this is
exactly the regex's first match. -/
def scanDateTime : List Char → Option (Nat × Nat × Nat × Nat × Nat)
  | [] => none
  | c :: t =>
      match matchDateTimeAt (c :: t) with
      | some r => some r
      | none => scanDateTime t

/-- ECMAScript `MakeFullYear`, applied by `Date.UTC`: a year argument in
`0..99` denotes `1900 + y`. -/
def jsMakeFullYear (y : Nat) : Nat := if y ≤ 99 then 1900 + y else y

/-- `Date.UTC(year, month-1, day, hours, minutes)` at minute granularity:
minutes since 0001-01-01T00:00Z of the given UTC wall-clock components
(minutes may exceed 59 and carry, as `onSubmit` exploits by passing
`minutes + duration`).  Faithful for month in `1..12` and day ≥ 1 (the
only shapes a wall-clock slot string produces); ECMAScript's
normalization of other month/day values is not modelled. -/
def dateUTCMinutes (y m d hh mi : Nat) : Nat :=
  daysFromCivil (jsMakeFullYear y) m d * 1440 + hh * 60 + mi

/-- The constant ":SS.sssZ" tail of a minute-aligned ISO string (seconds
and milliseconds are zero). -/
def isoSecondsTail : List Char := ':' :: (pad2 0 ++ ('.' :: ['0', '0', '0', 'Z']))

/-- `Date.prototype.toISOString().slice(0, 16)` of a minute-level time
value: render "YYYY-MM-DDTHH:MM:SS.sssZ" (years above 9999 use the
expanded "+YYYYYY" form) and keep the first 16 characters. -/
def isoSlice16 (tv : Nat) : List Char :=
  let q := tv / 1440
  let r := tv % 1440
  let ymd := civilFromDays q
  let yearStr :=
    if ymd.1 ≤ 9999 then pad4 ymd.1 else '+' :: padLeft 6 (natDigits ymd.1)
  let full := yearStr ++ ('-' :: (pad2 ymd.2.1 ++ ('-' :: (pad2 ymd.2.2 ++
    ('T' :: (pad2 (r / 60) ++ (':' :: (pad2 (r % 60) ++ isoSecondsTail))))))))
  full.take 16

/-- The time computation of `onSubmit` (BookingForm): percent-decode the
selected slot, take the first regex match of the wall-clock pattern, build
the end instant with `Date.UTC` adding the duration to the minutes
component, and return the payload's `(startTime, endTime)` pair.  `none`
models the thrown errors (URIError, "Invalid date format"). -/
def onSubmitTimes (selectedSlot : List Char) (duration : Nat) :
    Option (List Char × List Char) :=
  match decodeURIComponent selectedSlot with
  | none => none
  | some decodedSlotDate =>
      let startTimeString := decodedSlotDate
      match scanDateTime startTimeString with
      | none => none
      | some r =>
          let endTimeString :=
            isoSlice16 (dateUTCMinutes r.1 r.2.1 r.2.2.1 r.2.2.2.1
              (r.2.2.2.2 + duration))
          some (startTimeString, endTimeString)

/-- The decoded wall-clock form of a slot, with a four-digit year:
"YYYY-MM-DDTHH:MM". -/
def wallClock16 (y m d hh mi : Nat) : List Char :=
  pad4 y ++ ('-' :: (pad2 m ++ ('-' :: (pad2 d ++
    ('T' :: (pad2 hh ++ (':' :: pad2 mi)))))))

/-- The character set of a wall-clock slot string. -/
def slotChar (c : Char) : Bool := c.isDigit || c = '-' || c = 'T' || c = ':'

theorem wallClock16_chars (y m d hh mi : Nat) :
    ∀ c ∈ wallClock16 y m d hh mi, slotChar c = true := by
  intro c hc
  have hp4 : ∀ x ∈ pad4 y, x.isDigit = true := padLeft_digits 4 y
  have hpm : ∀ x ∈ pad2 m, x.isDigit = true := padLeft_digits 2 m
  have hpd : ∀ x ∈ pad2 d, x.isDigit = true := padLeft_digits 2 d
  have hph : ∀ x ∈ pad2 hh, x.isDigit = true := padLeft_digits 2 hh
  have hpi : ∀ x ∈ pad2 mi, x.isDigit = true := padLeft_digits 2 mi
  unfold wallClock16 at hc
  simp only [List.mem_append, List.mem_cons] at hc
  rcases hc with h | h | h | h | h | h | h | h | h
  · simp [slotChar, hp4 c h]
  · subst h; decide
  · simp [slotChar, hpm c h]
  · subst h; decide
  · simp [slotChar, hpd c h]
  · subst h; decide
  · simp [slotChar, hph c h]
  · subst h; decide
  · simp [slotChar, hpi c h]

theorem decodeURIGo_encode :
    ∀ (w : List Char), (∀ c ∈ w, slotChar c = true) →
      ∀ fuel, (encodeURIComponent w).length ≤ fuel →
        decodeURIGo fuel (encodeURIComponent w) = some w := by
  intro w
  induction w with
  | nil =>
      intro _ fuel _
      cases fuel with
      | zero => simp [encodeURIComponent, decodeURIGo]
      | succ f => simp [encodeURIComponent, decodeURIGo]
  | cons c w ih =>
      intro hw fuel hfuel
      have hc : slotChar c = true := hw c (by simp)
      have hw' : ∀ x ∈ w, slotChar x = true := fun x hx => hw x (by simp [hx])
      by_cases hcolon : c = ':'
      · subst hcolon
        have henc : encodeURIComponent (':' :: w)
            = '%' :: '3' :: 'A' :: encodeURIComponent w := rfl
        rw [henc] at hfuel ⊢
        match fuel, hfuel with
        | f + 1, hfuel =>
            have hlen : (encodeURIComponent w).length ≤ f := by
              simp at hfuel
              omega
            have hrec := ih hw' f hlen
            simp [decodeURIGo, hexVal, hrec]
      · have hcases : c.isDigit = true ∨ c = '-' ∨ c = 'T' := by
          unfold slotChar at hc
          simp [hcolon] at hc
          tauto
        have hunr : isUnreservedURI c = true := by
          rcases hcases with h | h | h
          · simp [isUnreservedURI, h]
          · subst h; decide
          · subst h; decide
        have hperc : c ≠ '%' := by
          rcases hcases with h | h | h
          · intro heq
            subst heq
            simp at h
          · subst h; decide
          · subst h; decide
        have henc : encodeURIComponent (c :: w) = c :: encodeURIComponent w := by
          simp [encodeURIComponent, hunr]
        rw [henc] at hfuel ⊢
        match fuel, hfuel with
        | f + 1, hfuel =>
            have hlen : (encodeURIComponent w).length ≤ f := by
              simp at hfuel
              omega
            have hrec := ih hw' f hlen
            simp [decodeURIGo, hperc, hrec]

/-- Percent-decoding inverts percent-encoding on wall-clock slot
strings. -/
theorem decodeURIComponent_encode (w : List Char)
    (hw : ∀ c ∈ w, slotChar c = true) :
    decodeURIComponent (encodeURIComponent w) = some w :=
  decodeURIGo_encode w hw (encodeURIComponent w).length (Nat.le_refl _)

theorem scanDateTime_wallClock (y m d hh mi : Nat) (hy : y ≤ 9999)
    (hm : m ≤ 99) (hd : d ≤ 99) (hhh : hh ≤ 99) (hmi : mi ≤ 99) :
    scanDateTime (wallClock16 y m d hh mi) = some (y, m, d, hh, mi) := by
  obtain ⟨hl4, hdig4, hval4⟩ := pad4_spec y hy
  obtain ⟨a1, a2, a3, a4, he4⟩ := list_eq_of_length_four (pad4 y) hl4
  obtain ⟨hlm, hdigm, hvalm⟩ := pad2_spec m hm
  obtain ⟨b1, b2, hem⟩ := list_eq_of_length_two (pad2 m) hlm
  obtain ⟨hld, hdigd, hvald⟩ := pad2_spec d hd
  obtain ⟨c1, c2, hed⟩ := list_eq_of_length_two (pad2 d) hld
  obtain ⟨hlh, hdigh, hvalh⟩ := pad2_spec hh hhh
  obtain ⟨f1, f2, heh⟩ := list_eq_of_length_two (pad2 hh) hlh
  obtain ⟨hli, hdigi, hvali⟩ := pad2_spec mi hmi
  obtain ⟨g1, g2, hei⟩ := list_eq_of_length_two (pad2 mi) hli
  rw [he4] at hdig4 hval4
  rw [hem] at hdigm hvalm
  rw [hed] at hdigd hvald
  rw [heh] at hdigh hvalh
  rw [hei] at hdigi hvali
  have ha1 : a1.isDigit = true := hdig4 a1 (by simp)
  have ha2 : a2.isDigit = true := hdig4 a2 (by simp)
  have ha3 : a3.isDigit = true := hdig4 a3 (by simp)
  have ha4 : a4.isDigit = true := hdig4 a4 (by simp)
  have hb1 : b1.isDigit = true := hdigm b1 (by simp)
  have hb2 : b2.isDigit = true := hdigm b2 (by simp)
  have hc1 : c1.isDigit = true := hdigd c1 (by simp)
  have hc2 : c2.isDigit = true := hdigd c2 (by simp)
  have hf1 : f1.isDigit = true := hdigh f1 (by simp)
  have hf2 : f2.isDigit = true := hdigh f2 (by simp)
  have hg1 : g1.isDigit = true := hdigi g1 (by simp)
  have hg2 : g2.isDigit = true := hdigi g2 (by simp)
  have hwl : wallClock16 y m d hh mi
      = a1 :: a2 :: a3 :: a4 :: '-' :: b1 :: b2 :: '-' :: c1 :: c2 :: 'T' ::
        f1 :: f2 :: ':' :: g1 :: g2 :: [] := by
    unfold wallClock16
    rw [he4, hem, hed, heh, hei]
    simp
  rw [hwl]
  have hmatch : matchDateTimeAt
      (a1 :: a2 :: a3 :: a4 :: '-' :: b1 :: b2 :: '-' :: c1 :: c2 :: 'T' ::
        f1 :: f2 :: ':' :: g1 :: g2 :: [])
      = some (digitsVal [a1, a2, a3, a4], digitsVal [b1, b2], digitsVal [c1, c2],
          digitsVal [f1, f2], digitsVal [g1, g2]) := by
    unfold matchDateTimeAt
    simp [ha1, ha2, ha3, ha4, hb1, hb2, hc1, hc2, hf1, hf2, hg1, hg2]
  unfold scanDateTime
  rw [hmatch]
  rw [hval4, hvalm, hvald, hvalh, hvali]

theorem daysBeforeYear_mono (a b : Nat) (h : a ≤ b) :
    daysBeforeYear a ≤ daysBeforeYear b := by
  have h4 : (a - 1) / 4 ≤ (b - 1) / 4 := Nat.div_le_div_right (by omega)
  have h100 : (a - 1) / 100 ≤ (b - 1) / 100 := Nat.div_le_div_right (by omega)
  have h400 : (a - 1) / 400 ≤ (b - 1) / 400 := Nat.div_le_div_right (by omega)
  unfold daysBeforeYear
  omega

theorem daysInMonth_le_31 (y m : Nat) : daysInMonth y m ≤ 31 := by
  unfold daysInMonth
  split_ifs <;> omega

theorem wallClock16_length (y m d hh mi : Nat) (hy : y ≤ 9999) (hm : m ≤ 99)
    (hd : d ≤ 99) (hhh : hh ≤ 99) (hmi : mi ≤ 99) :
    (wallClock16 y m d hh mi).length = 16 := by
  unfold wallClock16
  simp [List.length_append, (pad4_spec y hy).1, (pad2_spec m hm).1,
    (pad2_spec d hd).1, (pad2_spec hh hhh).1, (pad2_spec mi hmi).1]

theorem isoSlice16_eq_wallClock (tv EY EM ED : Nat)
    (hC : civilFromDays (tv / 1440) = (EY, EM, ED)) (hEY : EY ≤ 9999)
    (hEM : EM ≤ 99) (hED : ED ≤ 99) :
    isoSlice16 tv = wallClock16 EY EM ED (tv % 1440 / 60) (tv % 1440 % 60) := by
  have hh60 : tv % 1440 / 60 ≤ 99 := by omega
  have hm60 : tv % 1440 % 60 ≤ 99 := by omega
  have hfull : pad4 EY ++ ('-' :: (pad2 EM ++ ('-' :: (pad2 ED ++
        ('T' :: (pad2 (tv % 1440 / 60) ++ (':' :: (pad2 (tv % 1440 % 60)
          ++ isoSecondsTail))))))))
      = wallClock16 EY EM ED (tv % 1440 / 60) (tv % 1440 % 60)
          ++ isoSecondsTail := by
    unfold wallClock16
    simp [List.append_assoc]
  simp only [isoSlice16, hC]
  rw [if_pos hEY, hfull,
    ← wallClock16_length EY EM ED (tv % 1440 / 60) (tv % 1440 % 60) hEY hEM hED
        hh60 hm60,
    List.take_left]

/-- C2 (amended): for every valid encoded slot whose (four-digit) year is
at least 100 and whose end instant still falls in a four-digit year, and
every positive duration, `onSubmit` keeps the decoded wall-clock string
unchanged as `startTime` and produces as `endTime` the valid wall-clock
date-time whose linear minute count is the start's plus the duration
(correct minute/hour/day carry via `Date.UTC` construction). -/
theorem onSubmitTimes_adds_duration (y m d hh mi dur : Nat)
    (hy1 : 100 ≤ y) (hy2 : y ≤ 9999) (hval : validDate y m d)
    (hhh : hh ≤ 23) (hmi : mi ≤ 59) (_hdur : 1 ≤ dur)
    (hend : minutesOfCivil y m d hh mi + dur < minutesOfCivil 10000 1 1 0 0) :
    ∃ ey em ed ehh emi,
      onSubmitTimes (encodeURIComponent (wallClock16 y m d hh mi)) dur
        = some (wallClock16 y m d hh mi, wallClock16 ey em ed ehh emi)
      ∧ validDate ey em ed ∧ ehh ≤ 23 ∧ emi ≤ 59
      ∧ minutesOfCivil ey em ed ehh emi = minutesOfCivil y m d hh mi + dur := by
  obtain ⟨hm1, hm2, hd1, hd2⟩ := hval
  have hd31 := daysInMonth_le_31 y m
  have hdec := decodeURIComponent_encode _ (wallClock16_chars y m d hh mi)
  have hscan := scanDateTime_wallClock y m d hh mi hy2 (by omega) (by omega)
    (by omega) (by omega)
  have hmake : jsMakeFullYear y = y := by
    unfold jsMakeFullYear
    rw [if_neg (by omega)]
  have htv : dateUTCMinutes y m d hh (mi + dur)
      = minutesOfCivil y m d hh mi + dur := by
    unfold dateUTCMinutes minutesOfCivil
    rw [hmake]
    omega
  rcases hC : civilFromDays ((minutesOfCivil y m d hh mi + dur) / 1440)
    with ⟨EY, EM, ED⟩
  have hspec := civilFromDays_spec ((minutesOfCivil y m d hh mi + dur) / 1440)
  rw [hC] at hspec
  have hvalE : validDate EY EM ED := hspec.2.1
  have hdayE : daysFromCivil EY EM ED
      = (minutesOfCivil y m d hh mi + dur) / 1440 := hspec.2.2
  have h10000 : minutesOfCivil 10000 1 1 0 0 = daysBeforeYear 10000 * 1440 := by
    unfold minutesOfCivil daysFromCivil
    simp [daysBeforeMonth]
  have hq : (minutesOfCivil y m d hh mi + dur) / 1440 < daysBeforeYear 10000 := by
    omega
  have hEY : EY ≤ 9999 := by
    by_contra hcon
    have hgey : daysBeforeYear 10000 ≤ daysBeforeYear EY :=
      daysBeforeYear_mono _ _ (by omega)
    have hle : daysBeforeYear EY ≤ daysFromCivil EY EM ED := by
      unfold daysFromCivil
      omega
    omega
  obtain ⟨hEm1, hEm2, hEd1, hEd2⟩ := hvalE
  have hE31 := daysInMonth_le_31 EY EM
  have hiso := isoSlice16_eq_wallClock (minutesOfCivil y m d hh mi + dur)
    EY EM ED hC hEY (by omega) (by omega)
  refine ⟨EY, EM, ED, (minutesOfCivil y m d hh mi + dur) % 1440 / 60,
    (minutesOfCivil y m d hh mi + dur) % 1440 % 60, ?_,
    ⟨hEm1, hEm2, hEd1, hEd2⟩, by omega, by omega, ?_⟩
  · simp only [onSubmitTimes, hdec, hscan]
    rw [htv, hiso]
  · unfold minutesOfCivil
    unfold minutesOfCivil at hdayE hend h10000
    rw [hdayE]
    omega

set_option maxHeartbeats 8000000 in
set_option maxRecDepth 100000 in
/-- C2 counterexample: the valid encoded slot "0001-01-01T00:00" (year
0001) with duration 30 does NOT yield the start wall-clock plus 30
minutes: `Date.UTC` maps two-digit-range years 0..99 to 1900 + y
(`MakeFullYear`), so the produced endTime is "1901-01-01T00:30", not
"0001-01-01T00:30" — the claim quantified over every valid encoded slot is
false on the code. -/
theorem onSubmitTimes_counterexample :
    encodeURIComponent (wallClock16 1 1 1 0 0) = "0001-01-01T00%3A00".toList
    ∧ onSubmitTimes ("0001-01-01T00%3A00".toList) 30
        = some ("0001-01-01T00:00".toList, "1901-01-01T00:30".toList)
    ∧ "1901-01-01T00:30".toList = wallClock16 1901 1 1 0 30
    ∧ minutesOfCivil 1901 1 1 0 30 ≠ minutesOfCivil 1 1 1 0 0 + 30 := by
  refine ⟨by decide, by decide, by decide, by decide⟩

set_option maxHeartbeats 8000000 in
set_option maxRecDepth 100000 in
/-- C2 witness: the scenario slot "2025-06-03T09:00" with duration 30
satisfies every hypothesis, and concretely produces
endTime "2025-06-03T09:30" with startTime unchanged. -/
theorem onSubmitTimes_adds_duration_witness :
    (100 ≤ 2025 ∧ 2025 ≤ 9999 ∧ validDate 2025 6 3 ∧ 9 ≤ 23 ∧ 0 ≤ 59 ∧ 1 ≤ 30
      ∧ minutesOfCivil 2025 6 3 9 0 + 30 < minutesOfCivil 10000 1 1 0 0)
    ∧ (∃ ey em ed ehh emi,
        onSubmitTimes (encodeURIComponent (wallClock16 2025 6 3 9 0)) 30
          = some (wallClock16 2025 6 3 9 0, wallClock16 ey em ed ehh emi)
        ∧ validDate ey em ed ∧ ehh ≤ 23 ∧ emi ≤ 59
        ∧ minutesOfCivil ey em ed ehh emi = minutesOfCivil 2025 6 3 9 0 + 30)
    ∧ onSubmitTimes ("2025-06-03T09%3A00".toList) 30
        = some ("2025-06-03T09:00".toList, "2025-06-03T09:30".toList) :=
  ⟨⟨by decide, by decide, by decide, by decide, by decide, by decide, by decide⟩,
   onSubmitTimes_adds_duration 2025 6 3 9 0 30 (by decide) (by decide) (by decide)
     (by decide) (by decide) (by decide) (by decide),
   by decide⟩
